import Mathlib

/-!
Verification development for the fastjob bump bot (src/fastjob_bot.py, src/db.py).

The embedding is shallow: the pure text-parsing helpers of the source are
translated char-for-char (Python regexes are embedded as explicit scanning
functions over character lists), and the per-posting orchestration of
run_cycle is translated as a pure function of the observations the code
makes against the page (each playwright read that the source wraps in
try/except is modelled as an Option-valued input, where None stands for
"the read raised or the element was absent").  Coin values are Int; the
parsers only ever produce non-negative values, which is proved, not
assumed.
-/

namespace Fastjob

/-! ### Character classes (Python regex \s, \d, \w on the ASCII inputs used here) -/

def isWs (c : Char) : Bool :=
  c = ' ' || c = '\t' || c = '\n' || c = '\r' || c = '\x0b' || c = '\x0c'

def isDigitChar (c : Char) : Bool := c.isDigit

def isDigitComma (c : Char) : Bool := c.isDigit || c = ','

def isWordChar (c : Char) : Bool := c.isAlphanum || c = '_'

/-- Drop leading whitespace characters. -/
def dropWs : List Char → List Char
  | [] => []
  | c :: rest => if isWs c then dropWs rest else c :: rest

/-- Strip whitespace from both ends (Python str.strip). -/
def stripWs (l : List Char) : List Char :=
  (dropWs (dropWs l.reverse).reverse)

/-- Helper for collapsing whitespace runs; the flag records whether the
previous character was whitespace. -/
def collapseWsAux : Bool → List Char → List Char
  | _, [] => []
  | prevWs, c :: rest =>
    if isWs c then
      if prevWs then collapseWsAux true rest
      else ' ' :: collapseWsAux true rest
    else c :: collapseWsAux false rest

/-- Embeds clean_text from fastjob_bot.py: re.sub of one-or-more whitespace
with a single space, then strip. -/
def cleanText (s : String) : String :=
  String.mk (stripWs (collapseWsAux false s.data))

/-! ### Python int() on the digit-and-comma groups produced by the coin regex -/

def digitsToNat (l : List Char) : Nat :=
  l.foldl (fun n c => 10 * n + (c.toNat - Char.toNat '0')) 0

/-- Core of Python int(): optional sign then decimal digits.  The inputs the
source ever feeds it (regex groups of digits and commas, commas removed) are
plain digit strings, so the underscore and unicode-digit liberality of
Python int is not reached and is not modelled. -/
def readIntCore : List Char → Option Int
  | [] => none
  | c :: rest =>
    if c = '-' then
      if rest ≠ [] && rest.all isDigitChar then some (-(digitsToNat rest : Int)) else none
    else if c = '+' then
      if rest ≠ [] && rest.all isDigitChar then some ((digitsToNat rest : Int)) else none
    else
      if (c :: rest).all isDigitChar then some ((digitsToNat (c :: rest) : Int)) else none

/-- Embeds read_int_from_text: None for missing text, else remove commas,
strip, and parse as a Python int (None on failure). -/
def readIntFromText : Option String → Option Int
  | none => none
  | some s =>
    let l := stripWs (s.data.filter (fun c => c ≠ ','))
    readIntCore l

/-! ### COIN_NUM_RE = (\d[\d,]*)\s*coin, case-insensitive, re.search semantics -/

/-- Does the text start (after optional whitespace) with the letters c-o-i-n,
case-insensitively?  This is the tail of COIN_NUM_RE after the group. -/
def matchCoinTail (cs : List Char) : Bool :=
  match dropWs cs with
  | c1 :: c2 :: c3 :: c4 :: _ =>
    c1.toLower = 'c' && c2.toLower = 'o' && c3.toLower = 'i' && c4.toLower = 'n'
  | _ => false

/-- At a position whose first character is a digit, find the greedy group
match of (\d[\d,]*) followed by the tail, trying longer groups first exactly
as backtracking does. -/
def tryGroupAt (cs : List Char) : Option (List Char) :=
  let run := cs.takeWhile isDigitComma
  (List.range run.length).reverse.findSome? (fun k =>
    if matchCoinTail (cs.drop (k + 1)) then some (cs.take (k + 1)) else none)

/-- Leftmost search for COIN_NUM_RE, returning group 1. -/
def coinSearchAux : List Char → Option (List Char)
  | [] => none
  | c :: rest =>
    if isDigitChar c then
      match tryGroupAt (c :: rest) with
      | some g => some g
      | none => coinSearchAux rest
    else coinSearchAux rest

/-- re.search of COIN_NUM_RE over a string; Some holds group 1. -/
def coinNumSearch (s : String) : Option String :=
  (coinSearchAux s.data).map String.mk

/-! ### JID_RE = lbrack ?& rbrack jid=(\d+)\b, case-insensitive -/

/-- Case-insensitive literal match; returns the remaining characters. -/
def eatCaseless : List Char → List Char → Option (List Char)
  | [], s => some s
  | _ :: _, [] => none
  | p :: ps, c :: cs => if p.toLower = c.toLower then eatCaseless ps cs else none

/-- Try to match JID_RE at the current position. -/
def jidMatchAt : List Char → Option (List Char)
  | [] => none
  | c :: rest =>
    if c = '?' || c = '&' then
      match eatCaseless "jid=".data rest with
      | some rest2 =>
        let run := rest2.takeWhile isDigitChar
        if run.isEmpty then none
        else
          match rest2.drop run.length with
          | [] => some run
          | d :: _ => if isWordChar d then none else some run
      | none => none
    else none

def jidSearch : List Char → Option (List Char)
  | [] => none
  | c :: rest =>
    match jidMatchAt (c :: rest) with
    | some g => some g
    | none => jidSearch rest

/-- Embeds jid_from_href: None for a missing href, else JID_RE search. -/
def jidFromHref : Option String → Option String
  | none => none
  | some h => if h = "" then none else (jidSearch h.data).map String.mk

/-! ### STAT_ID_RE = jobAdStat_(views|applications|shares|messages|savedjob|invitation)_(\d+)$, case-insensitive -/

def statKws : List String :=
  ["views", "applications", "shares", "messages", "savedjob", "invitation"]

/-- Try to match STAT_ID_RE at the current position (anchored at end of
string, so the digit group must run to the end). -/
def statMatchAt (s : List Char) : Option (List Char) :=
  match eatCaseless "jobAdStat_".data s with
  | none => none
  | some rest =>
    statKws.findSome? (fun kw =>
      match eatCaseless kw.data rest with
      | none => none
      | some rest2 =>
        match rest2 with
        | '_' :: ds => if ds ≠ [] && ds.all isDigitChar then some ds else none
        | _ => none)

def statSearch : List Char → Option (List Char)
  | [] => none
  | c :: rest =>
    match statMatchAt (c :: rest) with
    | some g => some g
    | none => statSearch rest

/-- Embeds jid_from_stat_id: None for missing or empty id, else search of
STAT_ID_RE on the stripped string. -/
def jidFromStatId : Option String → Option String
  | none => none
  | some sid =>
    if sid = "" then none
    else (statSearch (stripWs sid.data)).map String.mk

/-! ### Public-permalink pattern /(\d{6,})/ used by extract_jid strategy 3 -/

/-- Match at the current position: a slash, at least six digits, a slash
right after the maximal digit run (backtracking inside the run cannot help
since a shorter run is followed by a digit, not a slash). -/
def pubMatchAt : List Char → Option (List Char)
  | [] => none
  | c :: rest =>
    if c = '/' then
      let run := rest.takeWhile isDigitChar
      if 6 ≤ run.length then
        match rest.drop run.length with
        | '/' :: _ => some run
        | _ => none
      else none
    else none

def pubSearch : List Char → Option (List Char)
  | [] => none
  | c :: rest =>
    match pubMatchAt (c :: rest) with
    | some g => some g
    | none => pubSearch rest

/-! ### Coin readers of fastjob_bot.py

Each playwright inner_text call the source wraps in try/except is modelled
as an Option String input: None stands for "the locator raised or the
element was absent".
-/

/-- One block of read_header_coins: if the text was obtained, search
COIN_NUM_RE; on a match the function returns the parse (even if that parse
is None); on no match, or on a raised read, control falls to the next
block.  The outer Option is "did this block return". -/
def headerBlock (t : Option String) : Option (Option Int) :=
  match t with
  | none => none
  | some txt =>
    match coinNumSearch txt with
    | some g => some (readIntFromText (some g))
    | none => none

/-- Embeds read_header_coins: try the header-credits element text, then the
summary-title element text. -/
def read_header_coins (headerTxt summaryTxt : Option String) : Option Int :=
  match headerBlock headerTxt with
  | some r => r
  | none =>
    match headerBlock summaryTxt with
    | some r => r
    | none => none

/-- One field of read_modal_cost_and_balance: text, COIN_NUM_RE search,
parse; any failure leaves the field None. -/
def modalField (t : Option String) : Option Int :=
  match t with
  | none => none
  | some txt =>
    match coinNumSearch txt with
    | some g => readIntFromText (some g)
    | none => none

/-- Embeds read_modal_cost_and_balance over the two element texts
(order-summary total, coin-balance). -/
def read_modal_cost_and_balance (totalTxt balTxt : Option String) :
    Option Int × Option Int :=
  (modalField totalTxt, modalField balTxt)

/-- Embeds coins_from_toast_or_body over the raw inner texts collected from
the toast/alert selectors: keep the non-empty ones, clean them, and return
the parse of the first text with a COIN_NUM_RE match (the source returns at
the first match even when its parse is None). -/
def coins_from_toast_or_body (raw : List String) : Option Int :=
  let texts := (raw.filter (fun a => a ≠ "" && stripWs a.data ≠ [])).map cleanText
  (texts.findSome? (fun t =>
    match coinNumSearch t with
    | some g => some (readIntFromText (some g))
    | none => none)).join

/-- Modelled abstraction of coins_from_activity_pages: the page navigation
and the bump-context line extraction (re.findall of an 80-char window
around the word bump) are abstracted as the resulting list of candidate
text snippets; each is searched with COIN_NUM_RE exactly as the source
does, and the parse of the first match is returned. -/
def coins_from_activity_texts (texts : List String) : Option Int :=
  (texts.findSome? (fun t =>
    match coinNumSearch t with
    | some g => some (readIntFromText (some g))
    | none => none)).join

/-- Embeds detect_visible_insufficient: the count of elements matching the
visible-insufficient-modal selector, and whether the first is visible; any
raised read yields false in the source and is modelled by count zero. -/
def detect_visible_insufficient (insufCount : Nat) (firstVisible : Bool) : Bool :=
  decide (0 < insufCount) && firstVisible

/-! ### Locator Resolver: extract_jid over a rendered card -/

/-- Observable projection of one posting card, in DOM order: the href
attributes of anchors matching a with href containing jid= (None when
get_attribute returns null), the id attributes of stat-number elements with
id starting jobAdStat_, and the hrefs of public permalink anchors. -/
structure Card where
  jidLinkHrefs : List (Option String)
  statIds : List (Option String)
  pubHrefs : List (Option String)

/-- Embeds jid_from_stat_id applied to (get_attribute or empty). -/
def statStep (card : Card) : Option String :=
  match card.statIds.head? with
  | some sid => jidFromStatId (some (sid.getD ""))
  | none => none

/-- Embeds strategy 3 of extract_jid: first public permalink anchor href,
searched for a slash-delimited run of at least six digits. -/
def pubStep (card : Card) : Option String :=
  match card.pubHrefs.head? with
  | some h => (pubSearch (h.getD "").data).map String.mk
  | none => none

/-- Embeds extract_jid: scan up to 20 jid-bearing anchors and return the
first parse; else the first stat-number id suffix; else the permalink
digits; else None. -/
def extract_jid (card : Card) : Option String :=
  let n := min card.jidLinkHrefs.length 20
  match (card.jidLinkHrefs.take n).findSome?
      (fun h => jidFromHref (some (h.getD ""))) with
  | some j => some j
  | none =>
    match statStep card with
    | some j => some j
    | none => pubStep card

/-! ### db.py -/

/-- One row of the bumps table as written by insert_bump. -/
structure BumpRow where
  job_id : String
  bumped_at : String
  coins_used : Option Int
  outcome : String
deriving DecidableEq, Repr

/-- The pragmas get_conn executes on every new connection. -/
structure Conn where
  journal_mode_wal : Bool
  foreign_keys_on : Bool

/-- Embeds get_conn of db.py: journal_mode=WAL and foreign_keys=ON are both
executed before the DDL. -/
def get_conn : Conn :=
  { journal_mode_wal := true, foreign_keys_on := true }

/-- DB operations issued by run_cycle, in program order. -/
inductive DbOp where
  | upsertJob : String → String → String → DbOp
  | insertBump : String → String → Option Int → String → DbOp
deriving DecidableEq, Repr

/-! ### Cycle Orchestrator: run_cycle of fastjob_bot.py, per posting -/

/-- Configuration read from the environment. -/
structure Config where
  dryRun : Bool
  coyid : String
  whenIso : String

/-- One discovered posting as produced by discover_jobs: the extracted jid,
the title, and whether find_bump_button returned a control. -/
structure Job where
  jid : Option String
  title : String
  hasBump : Bool

/-- The observations the live path makes against the page, in the order the
source makes them.  Fields the source reads but never uses (the pre-confirm
modal snapshot and the re-checked order-summary total) are kept to mirror
the code.  The outer try of lines 470-529 has two uncaught raise points
relative to the coins computation: openRaises models a raise before any
coins value exists (the scroll/click on the bump control, or the first
wait for the modal — all observably equivalent, since coins_used is still
None there), and recheckRaises models a raise inside the unwrapped
playwright calls of the modal re-check at line 514, which happens after
the header delta of lines 508-512 may already have set coins_used; the
handler at line 531 preserves that value into the bump-failed row. -/
structure LiveObs where
  headerTxtB1 : Option String
  headerTxtB2 : Option String
  openRaises : Bool
  modalVisible : Bool
  modalTotalTxt : Option String
  modalBalTxt : Option String
  confirmClickOk : Bool
  insufCount : Nat
  insufFirstVisible : Bool
  headerTxtA1 : Option String
  headerTxtA2 : Option String
  recheckRaises : Bool
  modalStillOpen : Bool
  modalTotalTxt2 : Option String
  modalBalTxt2 : Option String
  toastTexts : List String
  activityTexts : List String

/-- Which of the four insert_bump call sites raise (storage-write faults):
the dry-run write, the modal-not-found write, the early bump-failed write,
and the final write at the bottom of the live path. -/
structure WriteFaults where
  dryW : Bool
  mnfW : Bool
  bfW : Bool
  finW : Bool

/-- The all-writes-succeed fault assignment. -/
def noFaults : WriteFaults :=
  { dryW := false, mnfW := false, bfW := false, finW := false }

/-- Result of processing one posting: the bumps rows durably written, the
DB operations that succeeded in order, whether an exception escaped the
posting (aborting the cycle), and whether the live error handler logged. -/
structure ProcOut where
  rows : List BumpRow
  ops : List DbOp
  raised : Bool
  errLogged : Bool
deriving Repr

/-- Signal source 1 of the live coin accounting: header balance delta,
used only when both reads produced a number, after is at most before, and
the delta is strictly positive. -/
def headerDeltaSignal (b a : Option Int) : Option Int :=
  match b, a with
  | some cb, some ca =>
    if ca ≤ cb then (if 0 < cb - ca then some (cb - ca) else none) else none
  | _, _ => none

/-- Signal source 2: if the modal is still open, the delta between the
header balance read before the attempt and the re-read modal coin-balance
field (the order-summary total of the re-read is discarded by the source),
used only when positive. -/
def modalDeltaSignal (b : Option Int) (stillOpen : Bool) (balTxt2 : Option String) :
    Option Int :=
  if stillOpen then
    match b, modalField balTxt2 with
    | some cb, some m2 =>
      if m2 ≤ cb then (if 0 < cb - m2 then some (cb - m2) else none) else none
    | _, _ => none
  else none

/-- First defined value of an ordered signal list. -/
def firstSome (l : List (Option Int)) : Option Int :=
  l.findSome? id

/-- Lines 508-512: the coins_used value set by the header delta alone,
before the modal re-check at line 514 runs.  This is the value the
exception handler preserves when line 514 raises. -/
def headerCoins (e : LiveObs) : Option Int :=
  headerDeltaSignal (read_header_coins e.headerTxtB1 e.headerTxtB2)
    (read_header_coins e.headerTxtA1 e.headerTxtA2)

/-- The live coin computation of run_cycle lines 507-525 when no raise
interrupts it: header delta, then modal re-check delta, then toast text,
then activity pages; each later source is consulted only while coins_used
is still None. -/
def computeCoins (e : LiveObs) : Option Int :=
  firstSome
    [ headerCoins e
    , modalDeltaSignal (read_header_coins e.headerTxtB1 e.headerTxtB2)
        e.modalStillOpen e.modalBalTxt2
    , coins_from_toast_or_body e.toastTexts
    , coins_from_activity_texts e.activityTexts ]

/-- The classification at line 527: bumped when coins_used is a known
non-negative number, else bumped-unknown-coins. -/
def bumpedKnown : Option Int → Bool
  | some n => decide (0 ≤ n)
  | none => false

/-- The handler path: an exception inside the live try block was caught and
logged at line 531, outcome becomes bump-failed with coins_used left
exactly as it was at the raise point (passed in as coins: None before the
signal chain ran, the preserved header delta when line 514 raised), and
the final write at line 539 runs (raising out of run_cycle if it
faults). -/
def handlerOut (jid : String) (cfg : Config) (up : DbOp) (coins : Option Int)
    (wf : WriteFaults) : ProcOut :=
  if wf.finW then
    { rows := [], ops := [up], raised := true, errLogged := true }
  else
    { rows := [⟨jid, cfg.whenIso, coins, "bump-failed"⟩]
    , ops := [up, DbOp.insertBump jid cfg.whenIso coins "bump-failed"]
    , raised := false, errLogged := true }

/-- Lines 455-461: the dry branch (DRY_RUN, or no bump control found); the
insert_bump call is wrapped in try/except pass, so its fault is invisible. -/
def dryOut (cfg : Config) (jid : String) (up : DbOp) (wf : WriteFaults) : ProcOut :=
  if wf.dryW then { rows := [], ops := [up], raised := false, errLogged := false }
  else
    { rows := [⟨jid, cfg.whenIso, none, "dry-run"⟩]
    , ops := [up, DbOp.insertBump jid cfg.whenIso none "dry-run"]
    , raised := false, errLogged := false }

/-- The final insert_bump at line 539 with a given coins/outcome pair; it
is not wrapped in any handler, so its fault raises out of the cycle. -/
def finalWrite (cfg : Config) (jid : String) (up : DbOp) (coins : Option Int)
    (oc : String) (wf : WriteFaults) : ProcOut :=
  if wf.finW then
    { rows := [], ops := [up], raised := true, errLogged := false }
  else
    { rows := [⟨jid, cfg.whenIso, coins, oc⟩]
    , ops := [up, DbOp.insertBump jid cfg.whenIso coins oc]
    , raised := false, errLogged := false }

/-- Lines 500-539 after a successful confirm click: the insufficient check
at line 503 (zero coins, then the final write); otherwise the signal
chain, where a raise in the modal re-check at line 514 falls into the
handler with the header delta preserved, and a completed chain is
classified at line 527 and written at line 539. -/
def finalOut (cfg : Config) (jid : String) (up : DbOp) (e : LiveObs) (wf : WriteFaults) :
    ProcOut :=
  if detect_visible_insufficient e.insufCount e.insufFirstVisible then
    finalWrite cfg jid up (some 0) "insufficient-coins" wf
  else if e.recheckRaises then
    handlerOut jid cfg up (headerCoins e) wf
  else
    finalWrite cfg jid up (computeCoins e)
      (if bumpedKnown (computeCoins e) then "bumped" else "bumped-unknown-coins") wf

/-- Lines 463-541: the live path, branch for branch: open click raising,
modal never visible, confirm click failing, then the post-confirm
classification; inner writes that fault fall into the handler. -/
def liveOut (cfg : Config) (jid : String) (up : DbOp) (e : LiveObs) (wf : WriteFaults) :
    ProcOut :=
  if e.openRaises then handlerOut jid cfg up none wf
  else if !e.modalVisible then
    if wf.mnfW then handlerOut jid cfg up none wf
    else
      { rows := [⟨jid, cfg.whenIso, none, "modal-not-found"⟩]
      , ops := [up, DbOp.insertBump jid cfg.whenIso none "modal-not-found"]
      , raised := false, errLogged := false }
  else if !e.confirmClickOk then
    if wf.bfW then handlerOut jid cfg up none wf
    else
      { rows := [⟨jid, cfg.whenIso, none, "bump-failed"⟩]
      , ops := [up, DbOp.insertBump jid cfg.whenIso none "bump-failed"]
      , raised := false, errLogged := false }
  else finalOut cfg jid up e wf

/-- Embeds one iteration of the for loop of run_cycle (lines 440-541) for
one posting: skips write no row; the dry branch covers both DRY_RUN and a
missing bump control; otherwise the live path runs. -/
def processJob (cfg : Config) (j : Job) (e : LiveObs) (wf : WriteFaults) : ProcOut :=
  match j.jid with
  | none => { rows := [], ops := [], raised := false, errLogged := false }
  | some jid =>
    if jid = cfg.coyid then
      { rows := [], ops := [], raised := false, errLogged := false }
    else
      let up := DbOp.upsertJob jid j.title cfg.whenIso
      if cfg.dryRun || !j.hasBump then dryOut cfg jid up wf
      else liveOut cfg jid up e wf

/-- Python slicing jobs[:n] for an Int bound, as used at line 438. -/
def pySliceTo {α : Type} (l : List α) (n : Int) : List α :=
  if 0 ≤ n then l.take n.toNat else l.take (l.length - (-n).toNat)

/-- Embeds line 438: to_process = jobs if LIMIT_JOBS == 0 else jobs up to
LIMIT_JOBS. -/
def to_process {α : Type} (jobs : List α) (limit : Int) : List α :=
  if limit = 0 then jobs else pySliceTo jobs limit

/-- The per-posting loop over an already-capped list: accumulate rows and
ops; a raised posting aborts the rest of the cycle, as an uncaught
exception would propagate out of the for loop. -/
def runCycleAux (cfg : Config) : List (Job × LiveObs × WriteFaults) →
    List BumpRow × List DbOp × Bool
  | [] => ([], [], false)
  | (j, e, wf) :: rest =>
    let out := processJob cfg j e wf
    if out.raised then (out.rows, out.ops, true)
    else
      let r := runCycleAux cfg rest
      (out.rows ++ r.1, out.ops ++ r.2.1, r.2.2)

/-- One cycle over the discovered postings with the job cap applied. -/
def run_cycle (cfg : Config) (jobs : List (Job × LiveObs × WriteFaults))
    (limit : Int) : List BumpRow × List DbOp × Bool :=
  runCycleAux cfg (to_process jobs limit)

/-- The closed outcome vocabulary of the spec. -/
def outcomeEnum : List String :=
  ["dry-run", "bumped", "bumped-unknown-coins", "insufficient-coins",
   "modal-not-found", "bump-failed"]

/-- Referential discipline of a DB operation trace: every bump insert for an
identifier is preceded by a posting upsert for the same identifier. -/
def insertAfterUpsert (ops : List DbOp) : Prop :=
  ∀ (n : Nat) (jid when : String) (coins : Option Int) (oc : String),
    ops[n]? = some (DbOp.insertBump jid when coins oc) →
    ∃ m, m < n ∧ ∃ t w, ops[m]? = some (DbOp.upsertJob jid t w)

/-- The coin accountant ordered as the spec words it, with signal source 2
being the dialog order-summary total itself; defined only to compare with
the code's computeCoins. -/
def specSource2Coins (e : LiveObs) : Option Int :=
  firstSome
    [ headerDeltaSignal (read_header_coins e.headerTxtB1 e.headerTxtB2)
        (read_header_coins e.headerTxtA1 e.headerTxtA2)
    , (if e.modalStillOpen then modalField e.modalTotalTxt2 else none)
    , coins_from_toast_or_body e.toastTexts
    , coins_from_activity_texts e.activityTexts ]

/-! ## Concrete fixtures used by witnesses and counterexamples -/

/-- A live configuration with the default operator id of the source. -/
def cfgLive : Config :=
  { dryRun := false, coyid := "235927", whenIso := "2025-01-01T00:00:00+0000" }

/-- A dry-run configuration. -/
def cfgDry : Config :=
  { dryRun := true, coyid := "235927", whenIso := "2025-01-01T00:00:00+0000" }

/-- A live environment where every signal read fails or is absent, the
modal shows and the confirm click succeeds. -/
def envQuiet : LiveObs :=
  { headerTxtB1 := none, headerTxtB2 := none, openRaises := false
  , modalVisible := true, modalTotalTxt := none, modalBalTxt := none
  , confirmClickOk := true, insufCount := 0, insufFirstVisible := false
  , headerTxtA1 := none, headerTxtA2 := none, recheckRaises := false
  , modalStillOpen := false, modalTotalTxt2 := none, modalBalTxt2 := none
  , toastTexts := [], activityTexts := [] }

/-- Like envQuiet but a toast reports a spend of zero coins. -/
def envToastZero : LiveObs := { envQuiet with toastTexts := ["Used 0 coins"] }

/-- Like envQuiet but the bump modal never becomes visible. -/
def envNoModal : LiveObs := { envQuiet with modalVisible := false }

/-- Like envQuiet but the header read before gives 100 coins, the modal is
still open after confirming with balance 95 and an order-summary total of
7 coins, and the post headers are unreadable. -/
def envDialog : LiveObs :=
  { envQuiet with
      headerTxtB1 := some "100 coins", modalStillOpen := true,
      modalTotalTxt2 := some "Total: 7 coins", modalBalTxt2 := some "95 coins" }

/-- Like envQuiet but a visible insufficient dialog is present while the
confirm click fails. -/
def envInsufClickFail : LiveObs :=
  { envQuiet with
      confirmClickOk := false, insufCount := 1, insufFirstVisible := true }

/-- Like envQuiet but the header balance rises from 5 to 9 across the
attempt. -/
def envRising : LiveObs :=
  { envQuiet with headerTxtB1 := some "5 coins", headerTxtA1 := some "9 coins" }

/-- Like envQuiet but the header delta reads 100 then 95 and the modal
re-check raises, so the handler writes bump-failed with the preserved
delta of 5. -/
def envRecheckRaise : LiveObs :=
  { envQuiet with
      headerTxtB1 := some "100 coins", headerTxtA1 := some "95 coins",
      recheckRaises := true }

/-- A card whose first jid-bearing anchor parses. -/
def cardW : Card :=
  { jidLinkHrefs := [some "/p/job/edit/?coyid=235927&jid=123456"]
  , statIds := [some "jobAdStat_views_999999"]
  , pubHrefs := [some "https://www.fastjobs.sg/sg/job-ad/888777666/x"] }

/-! ## Helper lemmas: character classes and the coin-group parser -/

lemma exists_of_findSome {α β : Type} {f : α → Option β} {l : List α} {b : β}
    (h : l.findSome? f = some b) : ∃ a ∈ l, f a = some b := by
  rcases List.findSome?_eq_some_iff.mp h with ⟨l₁, a, l₂, rfl, ha, _⟩
  exact ⟨a, by simp, ha⟩

lemma digit_ne_of {c d : Char} (h : isDigitChar c = true)
    (hd : isDigitChar d = false) : ¬ c = d := by
  intro he
  rw [he, hd] at h
  cases h

lemma ws_cases {c : Char} (h : isWs c = true) :
    c = ' ' ∨ c = '\t' ∨ c = '\n' ∨ c = '\r' ∨ c = '\x0b' ∨ c = '\x0c' := by
  simp only [isWs, Bool.or_eq_true, decide_eq_true_eq] at h
  tauto

lemma digit_not_ws {c : Char} (h : isDigitChar c = true) : isWs c = false := by
  cases hw : isWs c
  · rfl
  · rcases ws_cases hw with rfl | rfl | rfl | rfl | rfl | rfl <;> cases h

lemma dropWs_eq_self {l : List Char} (h : ∀ c ∈ l, isWs c = false) :
    dropWs l = l := by
  cases l with
  | nil => rfl
  | cons c t => simp [dropWs, h c (by simp)]

lemma stripWs_eq_self {l : List Char} (h : ∀ c ∈ l, isWs c = false) :
    stripWs l = l := by
  have h1 : dropWs l.reverse = l.reverse :=
    dropWs_eq_self (fun c hc => h c (List.mem_reverse.mp hc))
  simp only [stripWs, h1, List.reverse_reverse]
  exact dropWs_eq_self h

lemma take_of_takeWhile_le {α : Type} {p : α → Bool} :
    ∀ (l : List α) (n : Nat), n ≤ (l.takeWhile p).length →
      ∀ c ∈ l.take n, p c = true := by
  intro l
  induction l with
  | nil => intro n _ c hc; simp at hc
  | cons a t ih =>
    intro n hn c hc
    cases n with
    | zero => simp at hc
    | succ m =>
      by_cases hp : p a = true
      · rw [List.takeWhile_cons, if_pos hp, List.length_cons] at hn
        rw [List.take_succ_cons] at hc
        rcases List.mem_cons.mp hc with rfl | hc2
        · exact hp
        · exact ih m (Nat.le_of_succ_le_succ hn) c hc2
      · rw [List.takeWhile_cons, if_neg hp] at hn
        simp at hn

lemma tryGroupAt_spec {cs g : List Char} (h : tryGroupAt cs = some g) :
    ∃ k, k + 1 ≤ (cs.takeWhile isDigitComma).length ∧ g = cs.take (k + 1) := by
  simp only [tryGroupAt] at h
  rcases exists_of_findSome h with ⟨k, hk, hfk⟩
  rw [List.mem_reverse, List.mem_range] at hk
  refine ⟨k, hk, ?_⟩
  by_cases hm : matchCoinTail (cs.drop (k + 1)) = true
  · rw [if_pos hm] at hfk
    exact (Option.some.injEq _ _ ▸ hfk).symm
  · rw [if_neg hm] at hfk
    cases hfk

lemma coinSearchAux_group {l g : List Char} (h : coinSearchAux l = some g) :
    ∃ c t, g = c :: t ∧ isDigitChar c = true ∧ ∀ x ∈ g, isDigitComma x = true := by
  induction l with
  | nil => simp [coinSearchAux] at h
  | cons a rest ih =>
    rw [coinSearchAux] at h
    by_cases hd : isDigitChar a = true
    · rw [if_pos hd] at h
      cases htry : tryGroupAt (a :: rest) with
      | none =>
        rw [htry] at h
        exact ih h
      | some g0 =>
        rw [htry] at h
        cases h
        rcases tryGroupAt_spec htry with ⟨k, hk, rfl⟩
        refine ⟨a, rest.take k, by rw [List.take_succ_cons], hd, ?_⟩
        exact take_of_takeWhile_le (a :: rest) (k + 1) hk
    · rw [if_neg hd] at h
      exact ih h

lemma digitComma_elim {x : Char} (h1 : isDigitComma x = true) (h2 : ¬ x = ',') :
    isDigitChar x = true := by
  simp only [isDigitComma, Bool.or_eq_true, decide_eq_true_eq] at h1
  rcases h1 with h | h
  · exact h
  · exact absurd h h2

lemma parse_group_nonneg {g : List Char} {c : Char} {t : List Char}
    (hg : g = c :: t) (hc : isDigitChar c = true)
    (hall : ∀ x ∈ g, isDigitComma x = true) :
    ∃ n : Nat, readIntFromText (some (String.mk g)) = some (n : Int) := by
  subst hg
  have hcne : ¬ c = ',' := digit_ne_of hc (by decide)
  have hfilter :
      (c :: t).filter (fun x => x ≠ ',') = c :: t.filter (fun x => x ≠ ',') := by
    simp [List.filter_cons, hcne]
  have halldig : ∀ x ∈ c :: t.filter (fun x => x ≠ ','), isDigitChar x = true := by
    intro x hx
    rcases List.mem_cons.mp hx with rfl | hx2
    · exact hc
    · rcases List.mem_filter.mp hx2 with ⟨hmem, hpr⟩
      exact digitComma_elim (hall x (List.mem_cons_of_mem c hmem))
        (by simpa using hpr)
  have hstrip :
      stripWs (c :: t.filter (fun x => x ≠ ',')) = c :: t.filter (fun x => x ≠ ',') :=
    stripWs_eq_self (fun x hx => digit_not_ws (halldig x hx))
  refine ⟨digitsToNat (c :: t.filter (fun x => x ≠ ',')), ?_⟩
  show readIntCore (stripWs (((String.mk (c :: t)).data).filter (fun x => x ≠ ','))) = _
  have hdata : (String.mk (c :: t)).data = c :: t := rfl
  rw [hdata, hfilter, hstrip, readIntCore]
  rw [if_neg (digit_ne_of hc (by decide)), if_neg (digit_ne_of hc (by decide)),
    if_pos (List.all_eq_true.mpr halldig)]

lemma coinParse_nonneg {s g : String} (h : coinNumSearch s = some g) :
    ∃ n : Nat, readIntFromText (some g) = some (n : Int) := by
  unfold coinNumSearch at h
  cases haux : coinSearchAux s.data with
  | none => rw [haux] at h; cases h
  | some gl =>
    rw [haux] at h
    cases h
    rcases coinSearchAux_group haux with ⟨c, t, hg, hc, hall⟩
    exact parse_group_nonneg hg hc hall

/-! ## Helper lemmas: the four coin signals only ever produce non-negative values -/

lemma firstTextParse_nonneg {texts : List String} {n : Int}
    (h : (texts.findSome? (fun t =>
        match coinNumSearch t with
        | some g => some (readIntFromText (some g))
        | none => none)).join = some n) : 0 ≤ n := by
  cases hfs : texts.findSome? (fun t =>
      match coinNumSearch t with
      | some g => some (readIntFromText (some g))
      | none => none) with
  | none => rw [hfs] at h; cases h
  | some o =>
    rw [hfs] at h
    rcases exists_of_findSome hfs with ⟨t, _, hft⟩
    cases hcs : coinNumSearch t with
    | none => rw [hcs] at hft; cases hft
    | some g =>
      rw [hcs] at hft
      cases hft
      rcases coinParse_nonneg hcs with ⟨m, hm⟩
      rw [hm] at h
      simp only [Option.join] at h
      cases h
      exact Int.ofNat_nonneg m

lemma toast_nonneg {raw : List String} {n : Int}
    (h : coins_from_toast_or_body raw = some n) : 0 ≤ n :=
  firstTextParse_nonneg h

lemma activity_nonneg {texts : List String} {n : Int}
    (h : coins_from_activity_texts texts = some n) : 0 ≤ n :=
  firstTextParse_nonneg h

lemma headerDelta_nonneg {b a : Option Int} {n : Int}
    (h : headerDeltaSignal b a = some n) : 0 ≤ n := by
  unfold headerDeltaSignal at h
  split at h
  · split at h
    · split at h
      · rename_i hpos
        cases h
        exact le_of_lt hpos
      · cases h
    · cases h
  · cases h

lemma modalDelta_nonneg {b : Option Int} {so : Bool} {balTxt2 : Option String} {n : Int}
    (h : modalDeltaSignal b so balTxt2 = some n) : 0 ≤ n := by
  unfold modalDeltaSignal at h
  split at h
  · split at h
    · split at h
      · split at h
        · rename_i hpos
          cases h
          exact le_of_lt hpos
        · cases h
      · cases h
    · cases h
  · cases h

lemma computeCoins_nonneg {e : LiveObs} {n : Int}
    (h : computeCoins e = some n) : 0 ≤ n := by
  unfold computeCoins firstSome at h
  rcases exists_of_findSome h with ⟨o, ho, hid⟩
  have ho2 : o = some n := hid
  subst ho2
  simp only [List.mem_cons, List.not_mem_nil, or_false] at ho
  rcases ho with h1 | h2 | h3 | h4
  · exact headerDelta_nonneg h1.symm
  · exact modalDelta_nonneg h2.symm
  · exact toast_nonneg h3.symm
  · exact activity_nonneg h4.symm

/-! ## Helper lemmas: the shape of every row each branch can write -/

lemma headerCoins_nonneg {e : LiveObs} {n : Int}
    (h : headerCoins e = some n) : 0 ≤ n := by
  unfold headerCoins at h
  exact headerDelta_nonneg h

lemma handlerOut_rows {jid : String} {cfg : Config} {up : DbOp} {coins : Option Int}
    {wf : WriteFaults} {r : BumpRow} (h : r ∈ (handlerOut jid cfg up coins wf).rows) :
    r = ⟨jid, cfg.whenIso, coins, "bump-failed"⟩ := by
  unfold handlerOut at h
  split at h
  · simp at h
  · simpa using h

lemma finalWrite_rows {cfg : Config} {jid : String} {up : DbOp} {coins : Option Int}
    {oc : String} {wf : WriteFaults} {r : BumpRow}
    (h : r ∈ (finalWrite cfg jid up coins oc wf).rows) :
    r = ⟨jid, cfg.whenIso, coins, oc⟩ := by
  unfold finalWrite at h
  split at h
  · simp at h
  · simpa using h

lemma dryOut_rows {cfg : Config} {jid : String} {up : DbOp} {wf : WriteFaults}
    {r : BumpRow} (h : r ∈ (dryOut cfg jid up wf).rows) :
    r = ⟨jid, cfg.whenIso, none, "dry-run"⟩ := by
  unfold dryOut at h
  split at h
  · simp at h
  · simpa using h

lemma finalOut_rows {cfg : Config} {jid : String} {up : DbOp} {e : LiveObs}
    {wf : WriteFaults} {r : BumpRow} (h : r ∈ (finalOut cfg jid up e wf).rows) :
    r.job_id = jid ∧ r.bumped_at = cfg.whenIso ∧
      ((r.coins_used = some 0 ∧ r.outcome = "insufficient-coins")
       ∨ (∃ n : Int, 0 ≤ n ∧ r.coins_used = some n ∧
           (r.outcome = "bumped" ∨ r.outcome = "bump-failed"))
       ∨ (r.coins_used = none ∧
           (r.outcome = "bumped-unknown-coins" ∨ r.outcome = "bump-failed"))) := by
  unfold finalOut at h
  split at h
  · rcases finalWrite_rows h with rfl
    exact ⟨rfl, rfl, Or.inl ⟨rfl, rfl⟩⟩
  · split at h
    · rcases handlerOut_rows h with rfl
      cases hhc : headerCoins e with
      | none => exact ⟨rfl, rfl, Or.inr (Or.inr ⟨rfl, Or.inr rfl⟩)⟩
      | some n =>
        exact ⟨rfl, rfl, Or.inr (Or.inl ⟨n, headerCoins_nonneg hhc, rfl, Or.inr rfl⟩)⟩
    · rcases finalWrite_rows h with rfl
      refine ⟨rfl, rfl, ?_⟩
      cases hcu : computeCoins e with
      | none =>
        refine Or.inr (Or.inr ⟨rfl, Or.inl ?_⟩)
        simp [bumpedKnown]
      | some n =>
        have hn := computeCoins_nonneg hcu
        refine Or.inr (Or.inl ⟨n, hn, rfl, Or.inl ?_⟩)
        simp [bumpedKnown, hn]

/-- Every row processJob can write: its job id is the posting's extracted
identifier, its timestamp is the shared cycle timestamp, and the
coins/outcome pair is one of the admissible shapes; bump-failed rows carry
either no coins or the non-negative header delta preserved by the
exception handler. -/
lemma processJob_rows {cfg : Config} {j : Job} {e : LiveObs} {wf : WriteFaults}
    {r : BumpRow} (h : r ∈ (processJob cfg j e wf).rows) :
    ∃ jid, j.jid = some jid ∧ jid ≠ cfg.coyid ∧
      r.job_id = jid ∧ r.bumped_at = cfg.whenIso ∧
      ((r.coins_used = none ∧
          (r.outcome = "dry-run" ∨ r.outcome = "modal-not-found"
           ∨ r.outcome = "bump-failed" ∨ r.outcome = "bumped-unknown-coins"))
       ∨ (r.coins_used = some 0 ∧ r.outcome = "insufficient-coins")
       ∨ (∃ n : Int, 0 ≤ n ∧ r.coins_used = some n ∧
           (r.outcome = "bumped" ∨ r.outcome = "bump-failed"))) := by
  unfold processJob at h
  cases hj : j.jid with
  | none => rw [hj] at h; simp at h
  | some jid =>
    rw [hj] at h
    dsimp only at h
    by_cases hco : jid = cfg.coyid
    · rw [if_pos hco] at h; simp at h
    · rw [if_neg hco] at h
      refine ⟨jid, rfl, hco, ?_⟩
      split at h
      · rcases dryOut_rows h with rfl
        exact ⟨rfl, rfl, Or.inl ⟨rfl, Or.inl rfl⟩⟩
      · unfold liveOut at h
        split at h
        · rcases handlerOut_rows h with rfl
          exact ⟨rfl, rfl, Or.inl ⟨rfl, Or.inr (Or.inr (Or.inl rfl))⟩⟩
        · split at h
          · split at h
            · rcases handlerOut_rows h with rfl
              exact ⟨rfl, rfl, Or.inl ⟨rfl, Or.inr (Or.inr (Or.inl rfl))⟩⟩
            · simp only [List.mem_singleton] at h
              subst h
              exact ⟨rfl, rfl, Or.inl ⟨rfl, Or.inr (Or.inl rfl)⟩⟩
          · split at h
            · split at h
              · rcases handlerOut_rows h with rfl
                exact ⟨rfl, rfl, Or.inl ⟨rfl, Or.inr (Or.inr (Or.inl rfl))⟩⟩
              · simp only [List.mem_singleton] at h
                subst h
                exact ⟨rfl, rfl, Or.inl ⟨rfl, Or.inr (Or.inr (Or.inl rfl))⟩⟩
            · rcases finalOut_rows h with ⟨h1, h2, h3⟩
              refine ⟨h1, h2, ?_⟩
              rcases h3 with ⟨hc, ho⟩ | ⟨n, hn, hc, ho⟩ | ⟨hc, ho⟩
              · exact Or.inr (Or.inl ⟨hc, ho⟩)
              · exact Or.inr (Or.inr ⟨n, hn, hc, ho⟩)
              · rcases ho with ho | ho
                · exact Or.inl ⟨hc, Or.inr (Or.inr (Or.inr ho))⟩
                · exact Or.inl ⟨hc, Or.inr (Or.inr (Or.inl ho))⟩

/-! ## Helper lemmas: DB operation order (upsert before insert) -/

lemma insertAfterUpsert_nil : insertAfterUpsert [] := by
  unfold insertAfterUpsert
  intro n jid when coins oc h
  simp at h

lemma insertAfterUpsert_append {l₁ l₂ : List DbOp}
    (h₁ : insertAfterUpsert l₁) (h₂ : insertAfterUpsert l₂) :
    insertAfterUpsert (l₁ ++ l₂) := by
  unfold insertAfterUpsert at h₁ h₂ ⊢
  intro n jid when coins oc h
  by_cases hn : n < l₁.length
  · rw [List.getElem?_append_left hn] at h
    rcases h₁ n jid when coins oc h with ⟨m, hm, t, w, hget⟩
    exact ⟨m, hm, t, w, by rw [List.getElem?_append_left (lt_trans hm hn)]; exact hget⟩
  · push_neg at hn
    rw [List.getElem?_append_right hn] at h
    rcases h₂ _ jid when coins oc h with ⟨m, hm, t, w, hget⟩
    refine ⟨l₁.length + m, by omega, t, w, ?_⟩
    rw [List.getElem?_append_right (by omega)]
    simpa [Nat.add_sub_cancel_left] using hget

lemma handlerOut_ops_shape {jid : String} {cfg : Config} {up : DbOp}
    {coins : Option Int} {wf : WriteFaults} :
    (handlerOut jid cfg up coins wf).ops = [up]
    ∨ ∃ c oc, (handlerOut jid cfg up coins wf).ops =
        [up, DbOp.insertBump jid cfg.whenIso c oc] := by
  unfold handlerOut
  split
  · exact Or.inl rfl
  · exact Or.inr ⟨coins, "bump-failed", rfl⟩

lemma processJob_ops (cfg : Config) (j : Job) (e : LiveObs) (wf : WriteFaults) :
    (processJob cfg j e wf).ops = []
    ∨ ∃ jid, j.jid = some jid ∧
        ((processJob cfg j e wf).ops = [DbOp.upsertJob jid j.title cfg.whenIso]
         ∨ ∃ coins oc, (processJob cfg j e wf).ops =
             [DbOp.upsertJob jid j.title cfg.whenIso,
              DbOp.insertBump jid cfg.whenIso coins oc]) := by
  unfold processJob
  cases hj : j.jid with
  | none => exact Or.inl rfl
  | some jid =>
    dsimp only
    by_cases hco : jid = cfg.coyid
    · rw [if_pos hco]
      exact Or.inl rfl
    · rw [if_neg hco]
      right
      refine ⟨jid, rfl, ?_⟩
      split
      · unfold dryOut
        split
        · exact Or.inl rfl
        · exact Or.inr ⟨none, "dry-run", rfl⟩
      · unfold liveOut
        split
        · exact handlerOut_ops_shape
        · split
          · split
            · exact handlerOut_ops_shape
            · exact Or.inr ⟨none, "modal-not-found", rfl⟩
          · split
            · split
              · exact handlerOut_ops_shape
              · exact Or.inr ⟨none, "bump-failed", rfl⟩
            · unfold finalOut
              split
              · unfold finalWrite
                split
                · exact Or.inl rfl
                · exact Or.inr ⟨some 0, "insufficient-coins", rfl⟩
              · split
                · exact handlerOut_ops_shape
                · unfold finalWrite
                  split
                  · exact Or.inl rfl
                  · exact Or.inr ⟨computeCoins e,
                      if bumpedKnown (computeCoins e) then "bumped"
                      else "bumped-unknown-coins", rfl⟩

lemma processJob_ordering (cfg : Config) (j : Job) (e : LiveObs) (wf : WriteFaults) :
    insertAfterUpsert (processJob cfg j e wf).ops := by
  unfold insertAfterUpsert
  intro n jid when coins oc h
  rcases processJob_ops cfg j e wf with h0 | ⟨jid0, hj, h1 | ⟨c0, o0, h2⟩⟩
  · rw [h0] at h; simp at h
  · rw [h1] at h
    rcases n with _ | m
    · simp at h
    · simp at h
  · rw [h2] at h
    rcases n with _ | m
    · simp at h
    · rcases m with _ | k
      · simp only [List.getElem?_cons_succ, List.getElem?_cons_zero,
          Option.some.injEq, DbOp.insertBump.injEq] at h
        refine ⟨0, Nat.zero_lt_one, j.title, cfg.whenIso, ?_⟩
        rw [h2]
        simp [h.1]
      · simp at h

/-- Rows of a cycle come from processing some posting of the list. -/
lemma runCycleAux_rows {cfg : Config} :
    ∀ {l : List (Job × LiveObs × WriteFaults)} {r : BumpRow},
      r ∈ (runCycleAux cfg l).1 →
      ∃ j e wf, (j, e, wf) ∈ l ∧ r ∈ (processJob cfg j e wf).rows := by
  intro l
  induction l with
  | nil => intro r h; simp [runCycleAux] at h
  | cons a rest ih =>
    intro r h
    obtain ⟨j, e, wf⟩ := a
    rw [runCycleAux] at h
    split at h
    · exact ⟨j, e, wf, by simp, h⟩
    · rcases List.mem_append.mp h with h1 | h2
      · exact ⟨j, e, wf, by simp, h1⟩
      · rcases ih h2 with ⟨j2, e2, wf2, hmem, hr⟩
        exact ⟨j2, e2, wf2, by simp [hmem], hr⟩

lemma runCycleAux_ordering (cfg : Config) :
    ∀ l : List (Job × LiveObs × WriteFaults),
      insertAfterUpsert (runCycleAux cfg l).2.1 := by
  intro l
  induction l with
  | nil => exact insertAfterUpsert_nil
  | cons a rest ih =>
    obtain ⟨j, e, wf⟩ := a
    rw [runCycleAux]
    split
    · exact processJob_ordering cfg j e wf
    · exact insertAfterUpsert_append (processJob_ordering cfg j e wf) ih

/-! ## Claim theorems -/

/-- C1: every outcome string a cycle (dry or live) writes to the
bump_attempts store is one of the six enum values dry-run, bumped,
bumped-unknown-coins, insufficient-coins, modal-not-found, bump-failed; in
particular the initial placeholder bump-attempted is never written. -/
theorem bump_outcome_enum_closed (cfg : Config)
    (jobs : List (Job × LiveObs × WriteFaults)) (limit : Int) (r : BumpRow)
    (h : r ∈ (run_cycle cfg jobs limit).1) :
    r.outcome ∈ outcomeEnum ∧ r.outcome ≠ "bump-attempted" := by
  rcases runCycleAux_rows h with ⟨j, e, wf, _, hr⟩
  rcases processJob_rows hr with ⟨jid, _, _, _, _, hshape⟩
  have houts : r.outcome = "dry-run" ∨ r.outcome = "modal-not-found"
      ∨ r.outcome = "bump-failed" ∨ r.outcome = "bumped-unknown-coins"
      ∨ r.outcome = "insufficient-coins" ∨ r.outcome = "bumped" := by
    rcases hshape with ⟨_, ho⟩ | ⟨_, ho⟩ | ⟨n, _, _, ho⟩
    · tauto
    · tauto
    · tauto
  rcases houts with ho | ho | ho | ho | ho | ho <;> rw [ho] <;>
    exact ⟨by decide, by decide⟩

theorem bump_outcome_enum_closed_witness :
    (⟨"111222", "2025-01-01T00:00:00+0000", none, "dry-run"⟩ : BumpRow) ∈
        (run_cycle cfgDry [(⟨some "111222", "T", true⟩, envQuiet, noFaults)] 0).1 ∧
      (BumpRow.outcome ⟨"111222", "2025-01-01T00:00:00+0000", none, "dry-run"⟩ ∈
          outcomeEnum ∧
        BumpRow.outcome ⟨"111222", "2025-01-01T00:00:00+0000", none, "dry-run"⟩ ≠
          "bump-attempted") := by
  have hmem : (⟨"111222", "2025-01-01T00:00:00+0000", none, "dry-run"⟩ : BumpRow) ∈
      (run_cycle cfgDry [(⟨some "111222", "T", true⟩, envQuiet, noFaults)] 0).1 := by
    decide
  exact ⟨hmem, bump_outcome_enum_closed cfgDry _ 0 _ hmem⟩

/-- C9: the connection enforces the foreign-key pragma, and in every cycle
any bump insert for an identifier is preceded in the DB operation order by
a posting upsert for the same identifier. -/
theorem bump_rows_reference_postings :
    get_conn.foreign_keys_on = true ∧
    ∀ (cfg : Config) (jobs : List (Job × LiveObs × WriteFaults)) (limit : Int),
      insertAfterUpsert (run_cycle cfg jobs limit).2.1 :=
  ⟨rfl, fun cfg jobs limit => runCycleAux_ordering cfg (to_process jobs limit)⟩

theorem bump_rows_reference_postings_witness :
    ∃ m, m < 1 ∧ ∃ t w,
      ((run_cycle cfgDry [(⟨some "111222", "T", true⟩, envQuiet, noFaults)] 0).2.1)[m]? =
        some (DbOp.upsertJob "111222" t w) :=
  bump_rows_reference_postings.2 cfgDry
    [(⟨some "111222", "T", true⟩, envQuiet, noFaults)] 0 1 "111222"
    "2025-01-01T00:00:00+0000" none "dry-run" (by decide)

/-- C10: the per-cycle cap processes the whole discovered list when the
configured limit is 0, the first limit postings when it is positive, and
all but the last limit-many postings when it is negative (Python slice
semantics), rather than unlimited or zero. -/
theorem limit_jobs_slice_semantics {α : Type} (jobs : List α) (limit : Int) :
    (limit = 0 → to_process jobs limit = jobs) ∧
    (0 < limit → to_process jobs limit = jobs.take limit.toNat) ∧
    (limit < 0 → to_process jobs limit = jobs.take (jobs.length - (-limit).toNat)) := by
  refine ⟨fun h => by simp [to_process, h], fun h => ?_, fun h => ?_⟩
  · have hne : limit ≠ 0 := by omega
    simp [to_process, hne, pySliceTo, le_of_lt h]
  · have hne : limit ≠ 0 := by omega
    have hneg : ¬ (0 : Int) ≤ limit := by omega
    simp [to_process, hne, pySliceTo, hneg]

theorem limit_jobs_slice_semantics_witness :
    to_process [1, 2, 3] (-1 : Int) = ([1, 2, 3] : List Nat).take (3 - 1) :=
  (limit_jobs_slice_semantics [1, 2, 3] (-1)).2.2 (by decide)

/-- If every element before index i maps to none and the element at i maps
to some b, the first-success scan returns b. -/
lemma findSome_of_first {α β : Type} (f : α → Option β) :
    ∀ (l : List α) (i : Nat) (a : α) (b : β),
      l[i]? = some a →
      (∀ k, k < i → ∀ a2, l[k]? = some a2 → f a2 = none) →
      f a = some b → l.findSome? f = some b := by
  intro l
  induction l with
  | nil =>
    intro i a b hi _ _
    simp at hi
  | cons x t ih =>
    intro i a b hi hprev hfa
    cases i with
    | zero =>
      simp only [List.getElem?_cons_zero, Option.some.injEq] at hi
      subst hi
      rw [List.findSome?_cons, hfa]
    | succ m =>
      have hx : f x = none := hprev 0 (Nat.succ_pos m) x (by simp)
      rw [List.findSome?_cons, hx]
      exact ih m a b (by simpa using hi)
        (fun k hk a2 hg => hprev (k + 1) (Nat.succ_lt_succ hk) a2 (by simpa using hg))
        hfa

/-- C5: if any of the first 20 jid-bearing links parses, extract_jid
returns the identifier of the first such link, independently of whether
the stat-id or permalink strategies would also succeed; and when
extraction fails entirely the posting is skipped upstream with no row and
no DB operation. -/
theorem extract_jid_first_link_and_skip :
    (∀ (card : Card) (i : Nat) (h0 : Option String) (jid : String),
      i < 20 → card.jidLinkHrefs[i]? = some h0 →
      (∀ k, k < i → ∀ h2, card.jidLinkHrefs[k]? = some h2 →
        jidFromHref (some (h2.getD "")) = none) →
      jidFromHref (some (h0.getD "")) = some jid →
      extract_jid card = some jid) ∧
    (∀ (cfg : Config) (card : Card) (title : String) (hb : Bool) (e : LiveObs)
      (wf : WriteFaults), extract_jid card = none →
      (processJob cfg ⟨extract_jid card, title, hb⟩ e wf).rows = [] ∧
      (processJob cfg ⟨extract_jid card, title, hb⟩ e wf).ops = []) := by
  constructor
  · intro card i h0 jid h20 hget hprev hparse
    have hlen : i < card.jidLinkHrefs.length := by
      by_contra hge
      push_neg at hge
      rw [List.getElem?_eq_none hge] at hget
      cases hget
    have hmin : i < min card.jidLinkHrefs.length 20 := lt_min hlen h20
    have htake :
        (card.jidLinkHrefs.take (min card.jidLinkHrefs.length 20))[i]? = some h0 := by
      rw [List.getElem?_take_of_lt hmin]
      exact hget
    have hfs : (card.jidLinkHrefs.take (min card.jidLinkHrefs.length 20)).findSome?
        (fun h => jidFromHref (some (h.getD ""))) = some jid := by
      refine findSome_of_first _ _ i h0 jid htake ?_ hparse
      intro k hk a2 hg
      have hkmin : k < min card.jidLinkHrefs.length 20 := lt_trans hk hmin
      rw [List.getElem?_take_of_lt hkmin] at hg
      exact hprev k hk a2 hg
    simp only [extract_jid]
    rw [hfs]
  · intro cfg card title hb e wf hnone
    rw [hnone]
    exact ⟨rfl, rfl⟩

theorem extract_jid_first_link_and_skip_witness :
    extract_jid cardW = some "123456" :=
  extract_jid_first_link_and_skip.1 cardW 0
    (some "/p/job/edit/?coyid=235927&jid=123456") "123456" (by decide) (by decide)
    (fun k hk => absurd hk (Nat.not_lt_zero k)) (by decide)

/-- C2 counterexample: in a live attempt where the balance deltas are
unreadable and a toast reads a spend of 0 coins, the code records outcome
bumped with coinsUsed exactly 0 — so coinsUsed equal to 0 does not imply
outcome insufficient-coins. -/
theorem coinsZero_not_only_insufficient_cex :
    (processJob cfgLive ⟨some "111222", "T", true⟩ envToastZero noFaults).rows =
      [⟨"111222", "2025-01-01T00:00:00+0000", some 0, "bumped"⟩] ∧
    "bumped" ≠ "insufficient-coins" :=
  ⟨by decide, by decide⟩

/-- C2 amended: for every row written, coinsUsed is exactly 0 when outcome
is insufficient-coins; a non-negative integer (which may also equal 0,
when a text signal reports zero) when outcome is bumped; absent for
bumped-unknown-coins, modal-not-found and dry-run; and for bump-failed it
is either absent or a non-negative value, namely the header delta the
exception handler preserves when the modal re-check raises after the
delta was computed. -/
theorem coinsUsed_outcome_invariant (cfg : Config)
    (jobs : List (Job × LiveObs × WriteFaults)) (limit : Int) (r : BumpRow)
    (h : r ∈ (run_cycle cfg jobs limit).1) :
    (r.outcome = "insufficient-coins" → r.coins_used = some 0) ∧
    (r.outcome = "bumped" → ∃ n : Int, 0 ≤ n ∧ r.coins_used = some n) ∧
    ((r.outcome = "bumped-unknown-coins" ∨ r.outcome = "modal-not-found"
      ∨ r.outcome = "dry-run") → r.coins_used = none) ∧
    (r.outcome = "bump-failed" →
      r.coins_used = none ∨ ∃ n : Int, 0 ≤ n ∧ r.coins_used = some n) := by
  rcases runCycleAux_rows h with ⟨j, e, wf, _, hr⟩
  rcases processJob_rows hr with ⟨jid, _, _, _, _, hshape⟩
  rcases hshape with ⟨hc, ho⟩ | ⟨hc, ho⟩ | ⟨n, hn, hc, ho⟩
  · refine ⟨?_, ?_, fun _ => hc, fun _ => Or.inl hc⟩
    · intro he
      rcases ho with h1 | h1 | h1 | h1 <;> exact absurd (h1.symm.trans he) (by decide)
    · intro he
      rcases ho with h1 | h1 | h1 | h1 <;> exact absurd (h1.symm.trans he) (by decide)
  · refine ⟨fun _ => hc, ?_, ?_, fun _ => Or.inr ⟨0, le_refl 0, hc⟩⟩
    · intro he
      exact absurd (ho.symm.trans he) (by decide)
    · intro he
      rcases he with h1 | h1 | h1 <;> exact absurd (ho.symm.trans h1) (by decide)
  · refine ⟨?_, fun _ => ⟨n, hn, hc⟩, ?_, fun _ => Or.inr ⟨n, hn, hc⟩⟩
    · intro he
      rcases ho with ho | ho <;> exact absurd (ho.symm.trans he) (by decide)
    · intro he
      rcases he with h1 | h1 | h1 <;> rcases ho with ho | ho <;>
        exact absurd (ho.symm.trans h1) (by decide)

theorem coinsUsed_outcome_invariant_witness :
    ((⟨"111222", "2025-01-01T00:00:00+0000", some 0, "bumped"⟩ : BumpRow) ∈
        (run_cycle cfgLive [(⟨some "111222", "T", true⟩, envToastZero, noFaults)] 0).1 ∧
      ∃ n : Int, 0 ≤ n ∧
        BumpRow.coins_used ⟨"111222", "2025-01-01T00:00:00+0000", some 0, "bumped"⟩ =
          some n) ∧
    ((⟨"111222", "2025-01-01T00:00:00+0000", some 5, "bump-failed"⟩ : BumpRow) ∈
        (run_cycle cfgLive
          [(⟨some "111222", "T", true⟩, envRecheckRaise, noFaults)] 0).1 ∧
      (BumpRow.coins_used
          ⟨"111222", "2025-01-01T00:00:00+0000", some 5, "bump-failed"⟩ = none ∨
        ∃ n : Int, 0 ≤ n ∧
          BumpRow.coins_used
            ⟨"111222", "2025-01-01T00:00:00+0000", some 5, "bump-failed"⟩ = some n)) := by
  have hmem : (⟨"111222", "2025-01-01T00:00:00+0000", some 0, "bumped"⟩ : BumpRow) ∈
      (run_cycle cfgLive [(⟨some "111222", "T", true⟩, envToastZero, noFaults)] 0).1 := by
    decide
  have hmem2 : (⟨"111222", "2025-01-01T00:00:00+0000", some 5, "bump-failed"⟩ : BumpRow) ∈
      (run_cycle cfgLive
        [(⟨some "111222", "T", true⟩, envRecheckRaise, noFaults)] 0).1 := by
    decide
  exact ⟨⟨hmem, (coinsUsed_outcome_invariant cfgLive _ 0 _ hmem).2.1 rfl⟩,
    ⟨hmem2, (coinsUsed_outcome_invariant cfgLive _ 0 _ hmem2).2.2.2 rfl⟩⟩

/-- C3 counterexample: in a live cycle a posting whose bump control is
never found (hence never visible) is recorded with outcome dry-run, not
modal-not-found. -/
theorem live_no_control_writes_dry_run_cex :
    (processJob cfgLive ⟨some "111222", "T", false⟩ envQuiet noFaults).rows =
      [⟨"111222", "2025-01-01T00:00:00+0000", none, "dry-run"⟩] ∧
    "dry-run" ≠ "modal-not-found" :=
  ⟨by decide, by decide⟩

/-- C3 amended: in a live cycle, a posting whose bump control is found and
clicked but whose bump dialog never becomes visible is recorded with
outcome modal-not-found and NULL coins, and the cycle continues to the
next posting; a posting with no bump control at all is instead recorded as
dry-run. -/
theorem live_modal_not_found_behaviour (cfg : Config) (j : Job) (e : LiveObs)
    (jid : String) (rest : List (Job × LiveObs × WriteFaults))
    (hjid : j.jid = some jid) (hne : jid ≠ cfg.coyid) (hdry : cfg.dryRun = false)
    (hb : j.hasBump = true) (hopen : e.openRaises = false)
    (hmv : e.modalVisible = false) :
    (processJob cfg j e noFaults).rows =
      [⟨jid, cfg.whenIso, none, "modal-not-found"⟩] ∧
    (processJob cfg j e noFaults).raised = false ∧
    (runCycleAux cfg ((j, e, noFaults) :: rest)).1 =
      ⟨jid, cfg.whenIso, none, "modal-not-found"⟩ :: (runCycleAux cfg rest).1 ∧
    (∀ e2 : LiveObs, (processJob cfg { j with hasBump := false } e2 noFaults).rows =
      [⟨jid, cfg.whenIso, none, "dry-run"⟩]) := by
  have hout : processJob cfg j e noFaults =
      { rows := [⟨jid, cfg.whenIso, none, "modal-not-found"⟩]
      , ops := [DbOp.upsertJob jid j.title cfg.whenIso,
                DbOp.insertBump jid cfg.whenIso none "modal-not-found"]
      , raised := false, errLogged := false } := by
    unfold processJob
    rw [hjid]
    dsimp only
    rw [if_neg hne, hdry, hb]
    simp only [Bool.false_or, Bool.not_true, Bool.false_eq_true, if_false]
    unfold liveOut
    rw [hopen, hmv]
    simp [noFaults]
  refine ⟨by rw [hout], by rw [hout], ?_, ?_⟩
  · rw [runCycleAux, hout]
    simp
  · intro e2
    unfold processJob
    rw [hjid]
    dsimp only
    rw [if_neg hne]
    simp only [Bool.not_false, Bool.or_true, if_true]
    unfold dryOut
    simp [noFaults]

/-- The confirmed-click live path reduces to the post-confirm step of
lines 500-539. -/
lemma processJob_confirmed {cfg : Config} {j : Job} {e : LiveObs} {jid : String}
    (wf : WriteFaults)
    (hjid : j.jid = some jid) (hne : jid ≠ cfg.coyid) (hdry : cfg.dryRun = false)
    (hb : j.hasBump = true) (hopen : e.openRaises = false)
    (hmv : e.modalVisible = true) (hclick : e.confirmClickOk = true) :
    processJob cfg j e wf =
      finalOut cfg jid (DbOp.upsertJob jid j.title cfg.whenIso) e wf := by
  unfold processJob
  rw [hjid]
  dsimp only
  rw [if_neg hne, hdry, hb]
  simp only [Bool.false_or, Bool.not_true, Bool.false_eq_true, if_false]
  unfold liveOut
  rw [hopen, hmv, hclick]
  simp only [Bool.not_true, Bool.false_eq_true, if_false, if_neg]

/-- Whatever the post-confirm branch, a faulting final write raises and
records nothing. -/
lemma finalOut_finW {cfg : Config} {jid : String} {up : DbOp} {e : LiveObs}
    {wf : WriteFaults} (hfw : wf.finW = true) :
    (finalOut cfg jid up e wf).raised = true ∧ (finalOut cfg jid up e wf).rows = [] := by
  unfold finalOut finalWrite handlerOut
  rw [hfw]
  split
  · exact ⟨rfl, rfl⟩
  · split
    · exact ⟨rfl, rfl⟩
    · exact ⟨rfl, rfl⟩

/-- C4 counterexample: with the header delta unavailable and the dialog
still open showing an order-summary total of 7 coins and a remaining
balance of 95 against a pre-attempt balance of 100, the spec-ordered
accountant (source 2 = dialog total) yields 7, but the code takes the
dialog-balance delta and records 5. -/
theorem coin_signal_source2_cex :
    computeCoins envDialog = some 5 ∧
    specSource2Coins envDialog = some 7 ∧
    (5 : Int) ≠ 7 ∧
    (processJob cfgLive ⟨some "111222", "T", true⟩ envDialog noFaults).rows =
      [⟨"111222", "2025-01-01T00:00:00+0000", some 5, "bumped"⟩] :=
  ⟨by decide, by decide, by decide, by decide⟩

/-- C4 amended: for a confirmed bump the signal sources are consulted in
the order header-balance delta, dialog remaining-balance delta against the
pre-attempt header balance (the order-summary total is read but unused),
toast text, activity text; the first value wins and is non-negative; if
none produces a value the outcome is bumped-unknown-coins with coins
unknown. -/
theorem coin_signal_order (cfg : Config) (j : Job) (e : LiveObs) (jid : String)
    (hjid : j.jid = some jid) (hne : jid ≠ cfg.coyid) (hdry : cfg.dryRun = false)
    (hb : j.hasBump = true) (hopen : e.openRaises = false)
    (hmv : e.modalVisible = true) (hclick : e.confirmClickOk = true)
    (hrr : e.recheckRaises = false)
    (hins : detect_visible_insufficient e.insufCount e.insufFirstVisible = false) :
    computeCoins e = firstSome
      [ headerDeltaSignal (read_header_coins e.headerTxtB1 e.headerTxtB2)
          (read_header_coins e.headerTxtA1 e.headerTxtA2)
      , modalDeltaSignal (read_header_coins e.headerTxtB1 e.headerTxtB2)
          e.modalStillOpen e.modalBalTxt2
      , coins_from_toast_or_body e.toastTexts
      , coins_from_activity_texts e.activityTexts ] ∧
    (computeCoins e = none →
      (processJob cfg j e noFaults).rows =
        [⟨jid, cfg.whenIso, none, "bumped-unknown-coins"⟩]) ∧
    (∀ n : Int, computeCoins e = some n → 0 ≤ n ∧
      (processJob cfg j e noFaults).rows = [⟨jid, cfg.whenIso, some n, "bumped"⟩]) := by
  have hout := processJob_confirmed noFaults hjid hne hdry hb hopen hmv hclick
  refine ⟨rfl, ?_, ?_⟩
  · intro hcu
    rw [hout]
    unfold finalOut
    rw [hins, hrr]
    simp only [Bool.false_eq_true, if_false]
    unfold finalWrite
    simp [noFaults, hcu, bumpedKnown]
  · intro n hcu
    have hn := computeCoins_nonneg hcu
    refine ⟨hn, ?_⟩
    rw [hout]
    unfold finalOut
    rw [hins, hrr]
    simp only [Bool.false_eq_true, if_false]
    unfold finalWrite
    simp [noFaults, hcu, bumpedKnown, hn]

theorem coin_signal_order_witness :
    computeCoins envToastZero = firstSome
      [ headerDeltaSignal
          (read_header_coins envToastZero.headerTxtB1 envToastZero.headerTxtB2)
          (read_header_coins envToastZero.headerTxtA1 envToastZero.headerTxtA2)
      , modalDeltaSignal
          (read_header_coins envToastZero.headerTxtB1 envToastZero.headerTxtB2)
          envToastZero.modalStillOpen envToastZero.modalBalTxt2
      , coins_from_toast_or_body envToastZero.toastTexts
      , coins_from_activity_texts envToastZero.activityTexts ] ∧
    (0 : Int) ≤ 0 ∧
    (processJob cfgLive ⟨some "111222", "T", true⟩ envToastZero noFaults).rows =
      [⟨"111222", "2025-01-01T00:00:00+0000", some 0, "bumped"⟩] := by
  have h := coin_signal_order cfgLive ⟨some "111222", "T", true⟩ envToastZero
    "111222" rfl (by decide) rfl rfl rfl rfl rfl rfl (by decide)
  exact ⟨h.1, (h.2.2 0 (by decide)).1, (h.2.2 0 (by decide)).2⟩

/-- C6: recorded coinsUsed values are never negative; and a header-balance
delta is used only when the after-balance is at most the before-balance:
when the balance rose, the header signal is discarded and the remaining
sources are consulted in order. -/
theorem coins_never_negative :
    (∀ (cfg : Config) (jobs : List (Job × LiveObs × WriteFaults)) (limit : Int)
      (r : BumpRow) (n : Int), r ∈ (run_cycle cfg jobs limit).1 →
      r.coins_used = some n → 0 ≤ n) ∧
    (∀ (e : LiveObs) (b a : Int),
      read_header_coins e.headerTxtB1 e.headerTxtB2 = some b →
      read_header_coins e.headerTxtA1 e.headerTxtA2 = some a →
      b < a →
      computeCoins e = firstSome
        [ modalDeltaSignal (some b) e.modalStillOpen e.modalBalTxt2
        , coins_from_toast_or_body e.toastTexts
        , coins_from_activity_texts e.activityTexts ]) := by
  constructor
  · intro cfg jobs limit r n h hc
    rcases runCycleAux_rows h with ⟨j, e, wf, _, hr⟩
    rcases processJob_rows hr with ⟨jid, _, _, _, _, hshape⟩
    rcases hshape with ⟨hc0, _⟩ | ⟨hc0, _⟩ | ⟨m, hm, hc0, _⟩ <;> rw [hc0] at hc
    · cases hc
    · simp only [Option.some.injEq] at hc
      omega
    · simp only [Option.some.injEq] at hc
      omega
  · intro e b a hb ha hba
    have hnone : headerDeltaSignal (some b) (some a) = none := by
      unfold headerDeltaSignal
      dsimp only
      rw [if_neg (not_le.mpr hba)]
    have hhc : headerCoins e = none := by
      unfold headerCoins
      rw [hb, ha]
      exact hnone
    simp only [computeCoins, hb, ha, hhc, firstSome, List.findSome?_cons, id]

theorem coins_never_negative_witness :
    (0 : Int) ≤ 0 ∧
    computeCoins envRising = firstSome
      [ modalDeltaSignal (some 5) envRising.modalStillOpen envRising.modalBalTxt2
      , coins_from_toast_or_body envRising.toastTexts
      , coins_from_activity_texts envRising.activityTexts ] := by
  constructor
  · exact coins_never_negative.1 cfgLive
      [(⟨some "111222", "T", true⟩, envToastZero, noFaults)] 0
      ⟨"111222", "2025-01-01T00:00:00+0000", some 0, "bumped"⟩ 0
      (by decide) (by decide)
  · exact coins_never_negative.2 envRising 5 9 (by decide) (by decide) (by decide)

/-- C7 counterexample: an insufficient-balance dialog is already visible
but the confirm click fails: the code records bump-failed, because the
insufficient check runs only after a successful confirm click, not while
the dialog is merely Open. -/
theorem insufficient_precheck_cex :
    (processJob cfgLive ⟨some "111222", "T", true⟩ envInsufClickFail noFaults).rows =
      [⟨"111222", "2025-01-01T00:00:00+0000", none, "bump-failed"⟩] ∧
    "bump-failed" ≠ "insufficient-coins" :=
  ⟨by decide, by decide⟩

/-- C7 amended: after a successful confirm click, a visible dialog
matching the insufficient pattern yields outcome insufficient-coins with
zero coins; visibility is the deciding signal, since a present-but-hidden
dialog never triggers the classification. -/
theorem insufficient_visibility_deciding (cfg : Config) (j : Job) (e : LiveObs)
    (jid : String) (hjid : j.jid = some jid) (hne : jid ≠ cfg.coyid)
    (hdry : cfg.dryRun = false) (hb : j.hasBump = true)
    (hopen : e.openRaises = false) (hmv : e.modalVisible = true)
    (hclick : e.confirmClickOk = true) :
    (e.insufFirstVisible = true → 0 < e.insufCount →
      (processJob cfg j e noFaults).rows =
        [⟨jid, cfg.whenIso, some 0, "insufficient-coins"⟩]) ∧
    (e.insufFirstVisible = false →
      ∀ r ∈ (processJob cfg j e noFaults).rows, r.outcome ≠ "insufficient-coins") ∧
    (∀ c : Nat, detect_visible_insufficient c false = false) := by
  have hout := processJob_confirmed noFaults hjid hne hdry hb hopen hmv hclick
  refine ⟨?_, ?_, ?_⟩
  · intro hv hcnt
    have hdet : detect_visible_insufficient e.insufCount e.insufFirstVisible = true := by
      unfold detect_visible_insufficient
      rw [hv]
      simp [hcnt]
    rw [hout]
    unfold finalOut
    rw [hdet]
    simp only [if_true]
    unfold finalWrite
    simp [noFaults]
  · intro hv r hr
    have hdet : detect_visible_insufficient e.insufCount e.insufFirstVisible = false := by
      unfold detect_visible_insufficient
      rw [hv]
      simp
    rw [hout] at hr
    unfold finalOut at hr
    rw [hdet] at hr
    simp only [Bool.false_eq_true, if_false] at hr
    by_cases hrr : e.recheckRaises = true
    · rw [if_pos hrr] at hr
      rcases handlerOut_rows hr with rfl
      show ("bump-failed" : String) ≠ "insufficient-coins"
      decide
    · rw [if_neg hrr] at hr
      rcases finalWrite_rows hr with rfl
      by_cases hbk : bumpedKnown (computeCoins e) = true <;> simp [hbk]
  · intro c
    unfold detect_visible_insufficient
    simp

theorem insufficient_visibility_deciding_witness :
    (processJob cfgLive ⟨some "111222", "T", true⟩
        { envQuiet with insufCount := 1, insufFirstVisible := true } noFaults).rows =
      [⟨"111222", "2025-01-01T00:00:00+0000", some 0, "insufficient-coins"⟩] ∧
    detect_visible_insufficient 1 false = false := by
  have h := insufficient_visibility_deciding cfgLive ⟨some "111222", "T", true⟩
    { envQuiet with insufCount := 1, insufFirstVisible := true }
    "111222" rfl (by decide) rfl rfl rfl rfl rfl
  exact ⟨h.1 rfl (by decide), h.2.2 1⟩

/-- C8: a storage-write failure on a dry-run row is swallowed and the
posting loop continues unaffected with nothing logged; a storage-write
failure at the live final write raises out of the cycle; and a failure at
an inner live write is caught by the handler, which logs the error and
records bump-failed, so it is not silently swallowed at the write site. -/
theorem storage_write_failure_policy :
    (∀ (cfg : Config) (j : Job) (e : LiveObs) (wf : WriteFaults) (jid : String),
      j.jid = some jid → jid ≠ cfg.coyid → (cfg.dryRun || !j.hasBump) = true →
      wf.dryW = true →
      (processJob cfg j e wf).rows = [] ∧ (processJob cfg j e wf).raised = false ∧
      (processJob cfg j e wf).errLogged = false) ∧
    (∀ (cfg : Config) (j : Job) (e : LiveObs) (wf : WriteFaults) (jid : String),
      j.jid = some jid → jid ≠ cfg.coyid → cfg.dryRun = false → j.hasBump = true →
      e.openRaises = false → e.modalVisible = true → e.confirmClickOk = true →
      wf.finW = true →
      (processJob cfg j e wf).raised = true ∧ (processJob cfg j e wf).rows = []) ∧
    (∀ (cfg : Config) (j : Job) (e : LiveObs) (jid : String),
      j.jid = some jid → jid ≠ cfg.coyid → cfg.dryRun = false → j.hasBump = true →
      e.openRaises = false → e.modalVisible = false →
      (processJob cfg j e { noFaults with mnfW := true }).errLogged = true ∧
      (processJob cfg j e { noFaults with mnfW := true }).rows =
        [⟨jid, cfg.whenIso, none, "bump-failed"⟩]) := by
  refine ⟨?_, ?_, ?_⟩
  · intro cfg j e wf jid hjid hne hdryb hdw
    unfold processJob
    rw [hjid]
    dsimp only
    rw [if_neg hne, hdryb]
    simp only [if_true]
    unfold dryOut
    rw [hdw]
    simp
  · intro cfg j e wf jid hjid hne hdry hb hopen hmv hclick hfw
    rw [processJob_confirmed wf hjid hne hdry hb hopen hmv hclick]
    exact finalOut_finW hfw
  · intro cfg j e jid hjid hne hdry hb hopen hmv
    unfold processJob
    rw [hjid]
    dsimp only
    rw [if_neg hne, hdry, hb]
    simp only [Bool.false_or, Bool.not_true, Bool.false_eq_true, if_false]
    unfold liveOut
    rw [hopen, hmv]
    simp only [Bool.not_false, if_true, Bool.false_eq_true, if_false]
    unfold handlerOut
    simp [noFaults]

theorem storage_write_failure_policy_witness :
    ((processJob cfgDry ⟨some "111222", "T", true⟩ envQuiet
        { noFaults with dryW := true }).rows = [] ∧
      (processJob cfgDry ⟨some "111222", "T", true⟩ envQuiet
        { noFaults with dryW := true }).raised = false ∧
      (processJob cfgDry ⟨some "111222", "T", true⟩ envQuiet
        { noFaults with dryW := true }).errLogged = false) ∧
    (processJob cfgLive ⟨some "111222", "T", true⟩ envQuiet
        { noFaults with finW := true }).raised = true := by
  constructor
  · exact storage_write_failure_policy.1 cfgDry ⟨some "111222", "T", true⟩ envQuiet
      { noFaults with dryW := true } "111222" rfl (by decide) rfl rfl
  · exact (storage_write_failure_policy.2.1 cfgLive ⟨some "111222", "T", true⟩ envQuiet
      { noFaults with finW := true } "111222" rfl (by decide) rfl rfl rfl rfl rfl rfl).1

theorem live_modal_not_found_behaviour_witness :
    (processJob cfgLive ⟨some "111222", "T", true⟩ envNoModal noFaults).rows =
      [⟨"111222", "2025-01-01T00:00:00+0000", none, "modal-not-found"⟩] ∧
    (processJob cfgLive ⟨some "111222", "T", true⟩ envNoModal noFaults).raised = false ∧
    (runCycleAux cfgLive [(⟨some "111222", "T", true⟩, envNoModal, noFaults)]).1 =
      ⟨"111222", "2025-01-01T00:00:00+0000", none, "modal-not-found"⟩ ::
        (runCycleAux cfgLive []).1 ∧
    (∀ e2 : LiveObs,
      (processJob cfgLive
        { jid := some "111222", title := "T", hasBump := false } e2 noFaults).rows =
      [⟨"111222", "2025-01-01T00:00:00+0000", none, "dry-run"⟩]) :=
  live_modal_not_found_behaviour cfgLive ⟨some "111222", "T", true⟩ envNoModal
    "111222" [] rfl (by decide) rfl rfl rfl rfl

end Fastjob
